import Mathlib

/-!
Shallow embedding of the heimdall session-management SDK (Go).

Conventions of the embedding:
* `time.Time` and `time.Duration` are modelled as `ℤ` (nanoseconds), so
  `24 * time.Hour` is `24 * hourNS`.
* Go `float64` coordinates, distances and thresholds are idealised as `ℝ`;
  the comparisons on them are therefore classical (noncomputable `Bool`s via
  `decide`).
* Go maps are modelled as association lists with first-match lookup;
  map assignment overwrites in place, map deletion removes every binding.
* A Go panic (e.g. `close` of an already-closed channel) is modelled as
  `Option.none` in the result of the operation that may panic.
* Go errors are modelled as `Option String` (`none` = nil error), with
  `fmt.Errorf` wrapping modelled as string prefixing.
-/

namespace Heimdall

open scoped Classical

/-- One second in the `ℤ`-nanosecond model of `time.Duration`. -/
def secondNS : ℤ := 1000000000

/-- `time.Hour` in nanoseconds. -/
def hourNS : ℤ := 3600 * secondNS

/-! ## config.go -/

/-- Config contains configuration options for Heimdall (config.go).
The injected `SessionStore` / `InvalidationCache` instances are not part of
this value model; the backend state is passed explicitly to the operations
that use it. -/
structure Config where
  SessionTTL : ℤ
  InvalidationTTL : ℤ
  GeoIPDatabasePath : String
  NewLocationThresholdKM : ℝ
  DatabasePath : String

/-- DefaultConfig returns a Config with sensible defaults (config.go:46). -/
def DefaultConfig : Config :=
  { SessionTTL := 24 * hourNS
    InvalidationTTL := 24 * hourNS
    GeoIPDatabasePath := ""
    NewLocationThresholdKM := 100
    DatabasePath := "heimdall.db" }

/-- applyDefaults fills in default values for zero-value fields
(config.go:56).  Note the source sets an unset `InvalidationTTL` to
`defaults.SessionTTL` (the constant 24h), not to `c.SessionTTL`. -/
noncomputable def Config.applyDefaults (c : Config) : Config :=
  let defaults := DefaultConfig
  { c with
    SessionTTL := if c.SessionTTL ≤ 0 then defaults.SessionTTL else c.SessionTTL
    InvalidationTTL :=
      if c.InvalidationTTL ≤ 0 then defaults.SessionTTL else c.InvalidationTTL
    NewLocationThresholdKM :=
      if c.NewLocationThresholdKM ≤ 0 then defaults.NewLocationThresholdKM
      else c.NewLocationThresholdKM
    DatabasePath := if c.DatabasePath = "" then defaults.DatabasePath else c.DatabasePath }

/-! ## session.go — public data model -/

/-- DeviceInfo contains device information extracted from the HTTP request. -/
structure DeviceInfo where
  IP : String
  UserAgent : String
  Browser : String
  OS : String
  DeviceType : String

/-- LocationInfo contains geographic location extracted from IP address. -/
structure LocationInfo where
  IP : String
  City : String
  Country : String
  Latitude : ℝ
  Longitude : ℝ

/-- Session represents an active user session (public shape). -/
structure Session where
  SessionID : String
  UserID : String
  Device : DeviceInfo
  Location : LocationInfo
  CreatedAt : ℤ
  TTLSeconds : ℤ

/-- RegisterResult is returned from RegisterSession with session info and
alerts. -/
structure RegisterResult where
  session : Option Session
  isNewLocation : Bool
  previousLocation : Option LocationInfo
  activeSessions : List Session
  limitExceeded : Bool

/-! ## distance.go (src/unnamed/part_001) -/

def earthRadiusKM : ℝ := 6371.0

/-- Model of Go's `math.Atan2` on ideal reals (the source calls it with two
non-negative arguments). -/
noncomputable def atan2 (y x : ℝ) : ℝ :=
  if 0 < x then Real.arctan (y / x)
  else if x < 0 then
    (if 0 ≤ y then Real.arctan (y / x) + Real.pi else Real.arctan (y / x) - Real.pi)
  else
    (if 0 < y then Real.pi / 2 else if y < 0 then -(Real.pi / 2) else 0)

/-- HaversineDistance calculates the distance in kilometers between two
geographic coordinates using the Haversine formula. -/
noncomputable def HaversineDistance (lat1 lng1 lat2 lng2 : ℝ) : ℝ :=
  let lat1Rad := lat1 * Real.pi / 180
  let lat2Rad := lat2 * Real.pi / 180
  let dLat := (lat2 - lat1) * Real.pi / 180
  let dLng := (lng2 - lng1) * Real.pi / 180
  let a := Real.sin (dLat / 2) * Real.sin (dLat / 2) +
    Real.cos lat1Rad * Real.cos lat2Rad *
      Real.sin (dLng / 2) * Real.sin (dLng / 2)
  let c := 2 * atan2 (Real.sqrt a) (Real.sqrt (1 - a))
  earthRadiusKM * c

/-- IsNewLocation returns true if the distance between two locations exceeds
the given threshold in kilometers; locations with the `(0, 0)` coordinate
sentinel fall back to a city/country comparison. -/
noncomputable def IsNewLocation (prev curr : LocationInfo) (thresholdKM : ℝ) : Bool :=
  if prev.Latitude = 0 ∧ prev.Longitude = 0 then
    decide (prev.City ≠ curr.City ∨ prev.Country ≠ curr.Country)
  else if curr.Latitude = 0 ∧ curr.Longitude = 0 then
    decide (prev.City ≠ curr.City ∨ prev.Country ≠ curr.Country)
  else
    decide (HaversineDistance prev.Latitude prev.Longitude curr.Latitude curr.Longitude
      > thresholdKM)

/-! ## store/interface.go — store-side Session -/

namespace Store

/-- store.Session — a copy of the main Session type used by storage
backends (store/interface.go). -/
structure StoreSession where
  SessionID : String
  UserID : String
  DeviceIP : String
  DeviceUA : String
  Browser : String
  OS : String
  DeviceType : String
  LocCity : String
  LocCountry : String
  LocLat : ℝ
  LocLng : ℝ
  TTLSeconds : ℤ
  CreatedAt : ℤ

/-- ExpiresAt returns the expiration time of the session:
`CreatedAt + time.Duration(TTLSeconds) * time.Second`. -/
def StoreSession.expiresAt (s : StoreSession) : ℤ :=
  s.CreatedAt + s.TTLSeconds * Heimdall.secondNS

/-! Association-list model of Go maps (first-match lookup; assignment
overwrites the existing binding in place, deletion removes all bindings). -/

/-- `m[k]` map read: `some v` when the key is present. -/
def assocGet {α : Type} (l : List (String × α)) (k : String) : Option α :=
  match l with
  | [] => none
  | (k', v) :: rest => if k' = k then some v else assocGet rest k

/-- `m[k] = v` map assignment. -/
def assocSet {α : Type} (l : List (String × α)) (k : String) (v : α) :
    List (String × α) :=
  match l with
  | [] => [(k, v)]
  | (k', v') :: rest =>
    if k' = k then (k, v) :: rest else (k', v') :: assocSet rest k v

/-- `delete(m, k)` map deletion. -/
def assocErase {α : Type} (l : List (String × α)) (k : String) :
    List (String × α) :=
  l.filter (fun e => decide (e.1 ≠ k))

/-! ### store/memory.go — MemorySessionStore -/

/-- MemorySessionStore state: `sessions` maps sessionID to the stored
session, `byUser` maps userID to the set (modelled as a list in insertion
order) of that user's sessionIDs. -/
structure MemStore where
  sessions : List (String × StoreSession)
  byUser : List (String × List String)

/-- NewMemorySessionStore creates a new in-memory session store. -/
def MemStore.empty : MemStore := { sessions := [], byUser := [] }

/-- Save persists a new session (store/memory.go).  The session is stored
under its SessionID and the SessionID is added to the user's index; an
existing binding for the same SessionID is overwritten, but the SessionID is
NOT removed from any other user's index entry. -/
def MemStore.save (st : MemStore) (session : StoreSession) : MemStore :=
  let sessions := assocSet st.sessions session.SessionID session
  let userSet := (assocGet st.byUser session.UserID).getD []
  let userSet :=
    if session.SessionID ∈ userSet then userSet else userSet ++ [session.SessionID]
  { sessions := sessions, byUser := assocSet st.byUser session.UserID userSet }

/-- Delete removes a session by its ID (store/memory.go): a no-op when the
session does not exist; otherwise the ID is removed from the owning user's
index (dropping the user entry when it becomes empty) and from `sessions`. -/
def MemStore.delete (st : MemStore) (sessionID : String) : MemStore :=
  match assocGet st.sessions sessionID with
  | none => st
  | some session =>
    let byUser :=
      match assocGet st.byUser session.UserID with
      | none => st.byUser
      | some userSessions =>
        let userSessions := userSessions.filter (fun i => decide (i ≠ sessionID))
        if userSessions = [] then assocErase st.byUser session.UserID
        else assocSet st.byUser session.UserID userSessions
    { sessions := assocErase st.sessions sessionID, byUser := byUser }

/-- Inner loop of the descending sort in GetActiveByUser: scanning the tail,
whenever a later element is newer than the current front element the two are
swapped.  Returns the maximum (by `CreatedAt`) together with the remaining
elements in the order the scan leaves them. -/
def bubbleMax (x : StoreSession) : List StoreSession → StoreSession × List StoreSession
  | [] => (x, [])
  | y :: ys =>
    if x.CreatedAt < y.CreatedAt then
      let p := bubbleMax y ys
      (p.1, x :: p.2)
    else
      let p := bubbleMax x ys
      (p.1, y :: p.2)

/-- Fuel-indexed outer loop of the sort in GetActiveByUser. -/
def sortGo : Nat → List StoreSession → List StoreSession
  | 0, l => l
  | _ + 1, [] => []
  | n + 1, x :: xs =>
    let p := bubbleMax x xs
    p.1 :: sortGo n p.2

/-- The double loop of GetActiveByUser that sorts the active list by
`CreatedAt` descending (store/memory.go lines 227-233). -/
def sortByCreatedDesc (l : List StoreSession) : List StoreSession :=
  sortGo l.length l

/-- GetActiveByUser returns all non-expired sessions for a user, sorted by
`CreatedAt` descending (store/memory.go).  `now` is the value of
`time.Now()` read inside the call. -/
def MemStore.getActiveByUser (st : MemStore) (userID : String) (now : ℤ) :
    List StoreSession :=
  match assocGet st.byUser userID with
  | none => []
  | some sessionIDs =>
    let active := sessionIDs.filterMap (fun sessionID =>
      match assocGet st.sessions sessionID with
      | some session =>
        if now < session.expiresAt then some session else none
      | none => none)
    sortByCreatedDesc active

/-- Close is a no-op for the memory store and always succeeds. -/
def MemStore.close (st : MemStore) : MemStore × Option String := (st, none)

/-- Consistency of the user index: every sessionID recorded under a user in
`byUser` resolves in `sessions` to a session carrying that same UserID. -/
def WFStore (st : MemStore) : Prop :=
  ∀ u ids, assocGet st.byUser u = some ids →
    ∀ sid ∈ ids, ∃ s, assocGet st.sessions sid = some s ∧ s.UserID = u

/-! ### store/memory.go — MemoryCache -/

/-- MemoryCache state: `entries` maps sessionID to its expiry instant;
`stopClosed` records whether the `stopCleanup` channel has been closed. -/
structure MemoryCache where
  entries : List (String × ℤ)
  stopClosed : Bool

/-- NewMemoryCache creates a new in-memory invalidation cache. -/
def MemoryCache.newCache : MemoryCache := { entries := [], stopClosed := false }

/-- Set marks a session ID as invalidated with the given TTL:
`entries[sessionID] = now + ttl`. -/
def MemoryCache.set (c : MemoryCache) (sessionID : String) (ttl now : ℤ) :
    MemoryCache :=
  { c with entries := assocSet c.entries sessionID (now + ttl) }

/-- Exists (store/memory.go:103): returns whether `sessionID` is a key of
`entries`.  Note the source consults only map membership; the stored expiry
instant is never compared against the current time here. -/
def MemoryCache.existsCheck (c : MemoryCache) (sessionID : String) : Bool :=
  match assocGet c.entries sessionID with
  | none => false
  | some _ => true

/-- cleanup removes all expired entries (entries whose expiry is strictly
before `now`); run by the background loop every 48 hours. -/
def MemoryCache.cleanup (c : MemoryCache) (now : ℤ) : MemoryCache :=
  { c with entries := c.entries.filter (fun e => decide (now ≤ e.2)) }

/-- Close stops the background cleanup goroutine by closing the
`stopCleanup` channel.  Closing an already-closed Go channel panics, which
the model renders as `none`. -/
def MemoryCache.close (c : MemoryCache) : Option MemoryCache :=
  if c.stopClosed then none else some { c with stopClosed := true }

end Store

/-! ## heimdall.go — the session manager -/

open Store

/-- storeToSession converts a store.Session to a public Session
(heimdall.go:237). -/
def storeToSession (s : StoreSession) : Session :=
  { SessionID := s.SessionID
    UserID := s.UserID
    Device :=
      { IP := s.DeviceIP
        UserAgent := s.DeviceUA
        Browser := s.Browser
        OS := s.OS
        DeviceType := s.DeviceType }
    Location :=
      { IP := s.DeviceIP
        City := s.LocCity
        Country := s.LocCountry
        Latitude := s.LocLat
        Longitude := s.LocLng }
    CreatedAt := s.CreatedAt
    TTLSeconds := s.TTLSeconds }

/-- The `prevLocation` value RegisterSession builds from the most recent
active session (heimdall.go:144-150). -/
def sessionLocation (s : StoreSession) : LocationInfo :=
  { IP := s.DeviceIP
    City := s.LocCity
    Country := s.LocCountry
    Latitude := s.LocLat
    Longitude := s.LocLng }

/-- The store.Session record RegisterSession persists
(heimdall.go:160-174); `TTLSeconds` is `int64(SessionTTL.Seconds())`. -/
def mkStoreSession (userID sessionID : String) (device : DeviceInfo)
    (location : LocationInfo) (now : ℤ) (cfg : Config) : StoreSession :=
  { SessionID := sessionID
    UserID := userID
    DeviceIP := device.IP
    DeviceUA := device.UserAgent
    Browser := device.Browser
    OS := device.OS
    DeviceType := device.DeviceType
    LocCity := location.City
    LocCountry := location.Country
    LocLat := location.Latitude
    LocLng := location.Longitude
    TTLSeconds := cfg.SessionTTL / Heimdall.secondNS
    CreatedAt := now }

/-- RegisterSession (heimdall.go:115-194), instantiated with the reference
in-memory store.  `now` stands for the `time.Now()` readings during the
call.  Returns the store state after the call together with the
RegisterResult (the memory store never returns an error). -/
noncomputable def registerSession (st : MemStore) (userID sessionID : String)
    (device : DeviceInfo) (location : LocationInfo) (concurrentLimit : ℤ)
    (now : ℤ) (cfg : Config) : MemStore × RegisterResult :=
  let activeSessions := st.getActiveByUser userID now
  let activePub := activeSessions.map storeToSession
  if concurrentLimit > 0 ∧ (activeSessions.length : ℤ) ≥ concurrentLimit then
    (st,
      { session := none
        isNewLocation := false
        previousLocation := none
        activeSessions := activePub
        limitExceeded := true })
  else
    let newLoc : Bool × Option LocationInfo :=
      match activeSessions with
      | [] => (false, none)
      | latestSession :: _ =>
        let prevLocation := sessionLocation latestSession
        if IsNewLocation prevLocation location cfg.NewLocationThresholdKM then
          (true, some prevLocation)
        else (false, none)
    let storeSession := mkStoreSession userID sessionID device location now cfg
    let st' := st.save storeSession
    let session : Session :=
      { SessionID := sessionID
        UserID := userID
        Device := device
        Location := location
        CreatedAt := now
        TTLSeconds := cfg.SessionTTL / Heimdall.secondNS }
    (st',
      { session := some session
        isNewLocation := newLoc.1
        previousLocation := newLoc.2
        activeSessions := session :: activePub
        limitExceeded := false })

/-- The store/cache operations InvalidateSession dispatches to through the
`SessionStore` / `InvalidationCache` interfaces, as explicit state
transformers returning the state after the attempt plus the Go error. -/
structure Backends (S C : Type) where
  storeDelete : String → S → S × Option String
  cacheSet : String → ℤ → C → C × Option String

/-- InvalidateSession (heimdall.go:199-211): delete from the session store;
on error, return the wrapped error without touching the cache; otherwise set
the invalidation cache with the configured TTL and propagate its error, if
any. -/
def invalidateSession {S C : Type} (b : Backends S C) (invalidationTTL : ℤ)
    (sessionID : String) (st : S × C) : (S × C) × Option String :=
  match b.storeDelete sessionID st.1 with
  | (s2, some e) =>
    ((s2, st.2), some ("heimdall: failed to delete session: " ++ e))
  | (s2, none) =>
    match b.cacheSet sessionID invalidationTTL st.2 with
    | (c2, some e) =>
      ((s2, c2), some ("heimdall: failed to set invalidation: " ++ e))
    | (c2, none) => ((s2, c2), none)

/-- Manager state for the Close path (heimdall.go:61-86), for a manager
whose session store is the in-memory store and whose invalidation cache is
the in-memory cache, with no GeoIP reader.  -/
structure HeimdallMem where
  sessions : MemStore
  invalidated : MemoryCache

/-- Close (heimdall.go:61-86) on a `HeimdallMem` manager: closes the session
store (a no-op returning nil) and then the invalidation cache; the latter
panics (modelled `none`) when its stop channel is already closed.  On a
normal return, the collected error list is empty, so the result error is
nil. -/
def HeimdallMem.close (h : HeimdallMem) : Option (HeimdallMem × Option String) :=
  let sessionsClosed := h.sessions.close
  match h.invalidated.close with
  | none => none
  | some cache2 =>
    some ({ sessions := sessionsClosed.1, invalidated := cache2 },
      match sessionsClosed.2 with
      | some _ => some "heimdall: errors during close"
      | none => none)

/-! ## Helper lemmas about the in-memory store's sort -/

namespace Store

theorem bubbleMax_perm (x : StoreSession) (l : List StoreSession) :
    List.Perm ((bubbleMax x l).1 :: (bubbleMax x l).2) (x :: l) := by
  induction l generalizing x with
  | nil => simp [bubbleMax]
  | cons y ys ih =>
    by_cases h : x.CreatedAt < y.CreatedAt
    · simp only [bubbleMax, if_pos h]
      exact (List.Perm.swap _ _ _).trans ((ih y).cons x)
    · simp only [bubbleMax, if_neg h]
      exact ((List.Perm.swap _ _ _).trans ((ih x).cons y)).trans
        (List.Perm.swap _ _ _)

theorem bubbleMax_max (x : StoreSession) (l : List StoreSession) :
    x.CreatedAt ≤ (bubbleMax x l).1.CreatedAt ∧
      ∀ z ∈ (bubbleMax x l).2, z.CreatedAt ≤ (bubbleMax x l).1.CreatedAt := by
  induction l generalizing x with
  | nil => simp [bubbleMax]
  | cons y ys ih =>
    by_cases h : x.CreatedAt < y.CreatedAt
    · simp only [bubbleMax, if_pos h]
      refine ⟨le_trans h.le (ih y).1, ?_⟩
      intro z hz
      rcases List.mem_cons.mp hz with hz | hz
      · exact hz ▸ le_trans h.le (ih y).1
      · exact (ih y).2 z hz
    · simp only [bubbleMax, if_neg h]
      refine ⟨(ih x).1, ?_⟩
      intro z hz
      rcases List.mem_cons.mp hz with hz | hz
      · exact hz ▸ le_trans (not_lt.mp h) (ih x).1
      · exact (ih x).2 z hz

theorem sortGo_perm (n : Nat) (l : List StoreSession) :
    List.Perm (sortGo n l) l := by
  induction n generalizing l with
  | zero => simp [sortGo]
  | succ n ih =>
    cases l with
    | nil => simp [sortGo]
    | cons x xs =>
      have step : sortGo (n + 1) (x :: xs)
          = (bubbleMax x xs).1 :: sortGo n (bubbleMax x xs).2 := rfl
      rw [step]
      exact ((ih _).cons _).trans (bubbleMax_perm x xs)

theorem sortGo_sorted (n : Nat) (l : List StoreSession) (h : l.length ≤ n) :
    List.Sorted (fun a b => b.CreatedAt ≤ a.CreatedAt) (sortGo n l) := by
  induction n generalizing l with
  | zero =>
    have : l = [] := List.length_eq_zero.mp (Nat.le_zero.mp h)
    simp [this, sortGo]
  | succ n ih =>
    cases l with
    | nil => simp [sortGo]
    | cons x xs =>
      have hlen : (bubbleMax x xs).2.length ≤ n := by
        have := (bubbleMax_perm x xs).length_eq
        simp only [List.length_cons] at this h
        omega
      refine List.sorted_cons.mpr ⟨?_, ih _ hlen⟩
      intro b hb
      have hb2 : b ∈ (bubbleMax x xs).2 := (sortGo_perm n _).mem_iff.mp hb
      exact (bubbleMax_max x xs).2 b hb2

theorem sortByCreatedDesc_perm (l : List StoreSession) :
    List.Perm (sortByCreatedDesc l) l :=
  sortGo_perm l.length l

theorem sortByCreatedDesc_sorted (l : List StoreSession) :
    List.Sorted (fun a b => b.CreatedAt ≤ a.CreatedAt) (sortByCreatedDesc l) :=
  sortGo_sorted l.length l le_rfl

theorem getActiveByUser_mem (st : MemStore) (u : String) (now : ℤ)
    (s : StoreSession) :
    s ∈ st.getActiveByUser u now ↔
      ∃ ids sid, assocGet st.byUser u = some ids ∧ sid ∈ ids ∧
        assocGet st.sessions sid = some s ∧ now < s.expiresAt := by
  unfold MemStore.getActiveByUser
  cases hby : assocGet st.byUser u with
  | none => simp
  | some ids =>
    rw [(sortByCreatedDesc_perm _).mem_iff, List.mem_filterMap]
    constructor
    · rintro ⟨sid, hsid, hf⟩
      refine ⟨ids, sid, rfl, hsid, ?_⟩
      cases hses : assocGet st.sessions sid with
      | none => simp [hses] at hf
      | some sess =>
        simp only [hses] at hf
        by_cases hexp : now < sess.expiresAt
        · rw [if_pos hexp] at hf
          obtain rfl : sess = s := Option.some.inj hf
          exact ⟨rfl, hexp⟩
        · rw [if_neg hexp] at hf
          cases hf
    · rintro ⟨ids', sid, hids, hsid, hses, hexp⟩
      cases hids
      exact ⟨sid, hsid, by simp [hses, hexp]⟩

end Store

open Store in
/-- C6 (amended): for every state of the in-memory store, `GetActiveByUser`
returns a list sorted by `CreatedAt` descending, whose members are exactly
the sessions found by resolving the sessionIDs indexed under the user that
satisfy `now < expiresAt`; users with no index entry get an empty result;
and when the user index is consistent these are all sessions of that user
(UserID = u). -/
theorem getActiveByUser_spec (st : MemStore) (u : String) (now : ℤ) :
    List.Sorted (fun a b => b.CreatedAt ≤ a.CreatedAt) (st.getActiveByUser u now)
    ∧ (∀ s, s ∈ st.getActiveByUser u now ↔
        ∃ ids sid, assocGet st.byUser u = some ids ∧ sid ∈ ids ∧
          assocGet st.sessions sid = some s ∧ now < s.expiresAt)
    ∧ (assocGet st.byUser u = none → st.getActiveByUser u now = [])
    ∧ (WFStore st → ∀ s ∈ st.getActiveByUser u now, s.UserID = u) := by
  refine ⟨?_, fun s => getActiveByUser_mem st u now s, ?_, ?_⟩
  · cases hby : assocGet st.byUser u with
    | none => simp [MemStore.getActiveByUser, hby]
    | some ids =>
      simp only [MemStore.getActiveByUser, hby]
      exact sortByCreatedDesc_sorted _
  · intro h
    simp [MemStore.getActiveByUser, h]
  · intro hwf s hs
    obtain ⟨ids, sid, hids, hsid, hses, _⟩ := (getActiveByUser_mem st u now s).mp hs
    obtain ⟨s', hs', hu⟩ := hwf u ids hids sid hsid
    rw [hses] at hs'
    cases hs'
    exact hu

open Store in
/-- Witness for C6 at concrete inputs: a consistent one-session store, whose
active query for user "A" yields only sessions with UserID "A", and the
empty store, whose query for any user is empty. -/
theorem getActiveByUser_spec_witness :
    (∀ s ∈ MemStore.getActiveByUser
        ⟨[("s1", ⟨"s1", "A", "", "", "", "", "", "", "", 0, 0, 10, 0⟩)],
         [("A", ["s1"])]⟩ "A" 5, s.UserID = "A")
    ∧ MemStore.getActiveByUser ⟨[], []⟩ "B" 0 = [] := by
  constructor
  · refine (getActiveByUser_spec _ "A" 5).2.2.2 ?_
    intro u ids hids sid hsid
    simp only [assocGet] at hids
    by_cases hu : ("A" : String) = u
    · subst hu
      rw [if_pos rfl] at hids
      cases hids
      rcases List.mem_singleton.mp hsid with rfl
      exact ⟨⟨"s1", "A", "", "", "", "", "", "", "", 0, 0, 10, 0⟩, rfl, rfl⟩
    · rw [if_neg hu] at hids
      cases hids
  · exact (getActiveByUser_spec ⟨[], []⟩ "B" 0).2.2.1 rfl

open Store in
/-- C6 counterexample: the claim as stated (output sessions are sessions "of
that user") fails on a reachable state.  After `Save{s1, user A}` then
`Save{s1, user B}`, the active query for user "A" returns the overwritten
session, whose UserID is "B". -/
theorem getActiveByUser_crossUser_cex :
    ((MemStore.getActiveByUser
        ((MemStore.empty.save ⟨"s1", "A", "", "", "", "", "", "", "", 0, 0, 10, 0⟩).save
          ⟨"s1", "B", "", "", "", "", "", "", "", 0, 0, 10, 0⟩) "A" 5).map
      StoreSession.UserID) = ["B"] := by
  rfl

open Store in
/-- C10: evaluation at the failing input.  `Save` does not remove the
sessionID from the previous owner's index, so after overwriting "s1" with a
session of user "B", user "A"'s active query still returns "s1" — and the
session it returns does not belong to "A". -/
theorem save_overwrite_crossUser_bug :
    ((MemStore.getActiveByUser
        ((MemStore.empty.save ⟨"s1", "A", "", "", "", "", "", "", "", 0, 0, 10, 0⟩).save
          ⟨"s1", "B", "", "", "", "", "", "", "", 0, 0, 10, 0⟩) "A" 5).map
      StoreSession.SessionID) = ["s1"]
    ∧ ((MemStore.getActiveByUser
        ((MemStore.empty.save ⟨"s1", "A", "", "", "", "", "", "", "", 0, 0, 10, 0⟩).save
          ⟨"s1", "B", "", "", "", "", "", "", "", 0, 0, 10, 0⟩) "A" 5).map
      StoreSession.UserID) ≠ ["A"] := by
  constructor
  · rfl
  · intro h
    have : ("B" : String) = "A" := by
      have := List.head_eq_of_cons_eq (by exact h)
      exact this
    simp at this

open Store in
/-- C2: evaluation at the failing input.  After `Set("s1", ttl = 5ns)` at
time 0, the entry expires at time 5; yet `Exists` still answers true (it
checks only map membership and never consults the expiry instant), even
though time 10 is past the expiry and no cleanup tick (interval: 48h) can
have run.  Only an explicit cleanup pass flips the answer to false. -/
theorem memoryCache_existsCheck_after_ttl_bug :
    ((MemoryCache.newCache.set "s1" 5 0).existsCheck "s1") = true
    ∧ ((0 : ℤ) + 5 < 10)
    ∧ (((MemoryCache.newCache.set "s1" 5 0).cleanup 10).existsCheck "s1") = false := by
  exact ⟨rfl, by norm_num, rfl⟩

open Store in
/-- C9: evaluation at the failing input.  On a manager whose invalidation
cache is the in-memory cache, the first Close succeeds with a nil error, but
a second Close closes the already-closed `stopCleanup` channel, which panics
(modelled as `none`). -/
theorem close_twice_panics_bug :
    HeimdallMem.close ⟨MemStore.empty, MemoryCache.newCache⟩
      = some (⟨MemStore.empty, { entries := [], stopClosed := true }⟩, none)
    ∧ HeimdallMem.close ⟨MemStore.empty, { entries := [], stopClosed := true }⟩
      = none := by
  exact ⟨rfl, rfl⟩

/-- C3 counterexample: with `SessionTTL = 48h` configured and
`InvalidationTTL` unset, the defaulted `InvalidationTTL` is the fixed
constant 24h, not the (defaulted) configured `SessionTTL` of 48h. -/
theorem invalidationTTL_default_cex :
    (Config.applyDefaults ⟨48 * hourNS, 0, "", 100, "heimdall.db"⟩).InvalidationTTL
      ≠ (Config.applyDefaults ⟨48 * hourNS, 0, "", 100, "heimdall.db"⟩).SessionTTL := by
  simp only [Config.applyDefaults, DefaultConfig]
  norm_num [hourNS, secondNS]

/-- C3 (amended): an unset (zero or negative) invalidationTTL defaults to
`DefaultConfig.SessionTTL`, the fixed 24-hour constant, whatever the
configured sessionTTL is. -/
theorem applyDefaults_invalidationTTL (cfg : Config)
    (h : cfg.InvalidationTTL ≤ 0) :
    (Config.applyDefaults cfg).InvalidationTTL = DefaultConfig.SessionTTL := by
  simp [Config.applyDefaults, if_pos h]

/-- Witness for the amended C3 at a concrete config with a 48h session TTL
and an unset invalidation TTL. -/
theorem applyDefaults_invalidationTTL_witness :
    ((0 : ℤ) ≤ 0)
    ∧ (Config.applyDefaults ⟨48 * hourNS, 0, "", 100, "heimdall.db"⟩).InvalidationTTL
      = DefaultConfig.SessionTTL :=
  ⟨le_rfl, applyDefaults_invalidationTTL ⟨48 * hourNS, 0, "", 100, "heimdall.db"⟩ le_rfl⟩

/-- C8 counterexample: a config constructed with `NewLocationThresholdKM = 0`
does not operate with a zero threshold — `applyDefaults` treats 0 as unset
and replaces it with the 100 km default. -/
theorem thresholdZero_config_cex :
    (Config.applyDefaults ⟨24 * hourNS, 24 * hourNS, "", 0, "heimdall.db"⟩).NewLocationThresholdKM
      ≠ 0 := by
  simp only [Config.applyDefaults, DefaultConfig]
  norm_num

/-- C8 (amended): a configured threshold ≤ 0 (in particular 0) is defaulted
to 100 km at construction, so no manager runs with a zero threshold; the
zero-threshold semantics — any strictly positive distance between known
coordinates is flagged — holds for `IsNewLocation` itself when it is called
with threshold 0. -/
theorem thresholdZero_spec (cfg : Config)
    (h : cfg.NewLocationThresholdKM ≤ 0) (prev curr : LocationInfo)
    (hp : ¬(prev.Latitude = 0 ∧ prev.Longitude = 0))
    (hc : ¬(curr.Latitude = 0 ∧ curr.Longitude = 0)) :
    (Config.applyDefaults cfg).NewLocationThresholdKM = 100
    ∧ (IsNewLocation prev curr 0 = true ↔
        0 < HaversineDistance prev.Latitude prev.Longitude
          curr.Latitude curr.Longitude) := by
  constructor
  · simp [Config.applyDefaults, DefaultConfig, if_pos h]
  · simp only [IsNewLocation, if_neg hp, if_neg hc, decide_eq_true_eq, gt_iff_lt]

/-- Witness for the amended C8 at a concrete zero-threshold config and a
concrete pair of locations with known coordinates. -/
theorem thresholdZero_spec_witness :
    ((0 : ℝ) ≤ 0)
    ∧ ((Config.applyDefaults ⟨24 * hourNS, 24 * hourNS, "", 0, "heimdall.db"⟩).NewLocationThresholdKM = 100
      ∧ (IsNewLocation ⟨"", "X", "Y", 1, 0⟩ ⟨"", "X", "Y", 1, 0⟩ 0 = true ↔
          0 < HaversineDistance 1 0 1 0)) := by
  refine ⟨le_rfl, ?_⟩
  exact thresholdZero_spec ⟨24 * hourNS, 24 * hourNS, "", 0, "heimdall.db"⟩ le_rfl
    ⟨"", "X", "Y", 1, 0⟩ ⟨"", "X", "Y", 1, 0⟩ (by norm_num) (by norm_num)

/-- C7: for locations whose coordinates are known (not the `(0,0)` sentinel)
and a threshold `t ≥ 0`, `IsNewLocation` flags exactly the pairs whose
haversine distance strictly exceeds `t`: a distance equal to `t` is not
flagged, and a distance of `t + ε` with `ε > 0` is flagged. -/
theorem isNewLocation_threshold_spec (prev curr : LocationInfo) (t : ℝ)
    (hp : ¬(prev.Latitude = 0 ∧ prev.Longitude = 0))
    (hc : ¬(curr.Latitude = 0 ∧ curr.Longitude = 0)) (ht : 0 ≤ t) :
    (IsNewLocation prev curr t = true ↔
      HaversineDistance prev.Latitude prev.Longitude curr.Latitude curr.Longitude > t)
    ∧ (HaversineDistance prev.Latitude prev.Longitude curr.Latitude curr.Longitude = t →
        IsNewLocation prev curr t = false)
    ∧ (∀ ε : ℝ, 0 < ε →
        HaversineDistance prev.Latitude prev.Longitude curr.Latitude curr.Longitude
          = t + ε →
        IsNewLocation prev curr t = true) := by
  have hiff : IsNewLocation prev curr t = true ↔
      HaversineDistance prev.Latitude prev.Longitude curr.Latitude curr.Longitude > t := by
    simp only [IsNewLocation, if_neg hp, if_neg hc, decide_eq_true_eq]
  refine ⟨hiff, ?_, ?_⟩
  · intro hd
    refine Bool.eq_false_iff.mpr fun htrue => ?_
    exact absurd (hiff.mp htrue) (by rw [hd]; exact lt_irrefl t)
  · intro ε hε hd
    exact hiff.mpr (by rw [hd]; linarith)

/-- Witness for C7 at a concrete pair of identical known-coordinate
locations and threshold 0. -/
theorem isNewLocation_threshold_spec_witness :
    ((0 : ℝ) ≤ 0)
    ∧ ((IsNewLocation ⟨"", "X", "Y", 1, 0⟩ ⟨"", "X", "Y", 1, 0⟩ 0 = true ↔
        HaversineDistance 1 0 1 0 > 0)
      ∧ (HaversineDistance 1 0 1 0 = 0 →
          IsNewLocation ⟨"", "X", "Y", 1, 0⟩ ⟨"", "X", "Y", 1, 0⟩ 0 = false)
      ∧ (∀ ε : ℝ, 0 < ε → HaversineDistance 1 0 1 0 = 0 + ε →
          IsNewLocation ⟨"", "X", "Y", 1, 0⟩ ⟨"", "X", "Y", 1, 0⟩ 0 = true)) := by
  refine ⟨le_rfl, ?_⟩
  exact isNewLocation_threshold_spec ⟨"", "X", "Y", 1, 0⟩ ⟨"", "X", "Y", 1, 0⟩ 0
    (by norm_num) (by norm_num) le_rfl

/-- C4: InvalidateSession first attempts the store delete; on a delete error
the cache is left unchanged and the wrapped delete error is returned; on
delete success the cache set is attempted and its error, if any, is the
result (otherwise nil). -/
theorem invalidateSession_error_spec {S C : Type} (b : Backends S C) (ttl : ℤ)
    (sid : String) (st : S × C) :
    (∀ s2 e, b.storeDelete sid st.1 = (s2, some e) →
      invalidateSession b ttl sid st
        = ((s2, st.2), some ("heimdall: failed to delete session: " ++ e)))
    ∧ (∀ s2, b.storeDelete sid st.1 = (s2, none) →
        (∀ c2 e, b.cacheSet sid ttl st.2 = (c2, some e) →
          invalidateSession b ttl sid st
            = ((s2, c2), some ("heimdall: failed to set invalidation: " ++ e)))
        ∧ (∀ c2, b.cacheSet sid ttl st.2 = (c2, none) →
            invalidateSession b ttl sid st = ((s2, c2), none))) := by
  refine ⟨?_, ?_⟩
  · intro s2 e h
    simp [invalidateSession, h]
  · intro s2 h
    refine ⟨?_, ?_⟩
    · intro c2 e h2
      simp [invalidateSession, h, h2]
    · intro c2 h2
      simp [invalidateSession, h, h2]

/-- Witness for C4 with a concrete failing store delete: the error is the
wrapped delete error and the cache component is untouched. -/
theorem invalidateSession_error_spec_witness :
    invalidateSession
        (⟨fun _ s => (s, some "io"), fun _ _ c => (c, none)⟩ : Backends ℤ ℤ)
        0 "s1" (0, 0)
      = ((0, 0), some ("heimdall: failed to delete session: " ++ "io")) :=
  (invalidateSession_error_spec
    (⟨fun _ s => (s, some "io"), fun _ _ c => (c, none)⟩ : Backends ℤ ℤ)
    0 "s1" (0, 0)).1 0 "io" rfl

open Store in
/-- C1: when `concurrentLimit > 0` and the fetched active list already has
at least `concurrentLimit` entries, RegisterSession returns
`LimitExceeded = true`, no session, the fetched active list in public form,
and leaves the store untouched; when `concurrentLimit = 0` the limit check
is skipped and the registration is admitted (and persisted) regardless of
the number of active sessions. -/
theorem registerSession_limit_spec (st : MemStore) (userID sessionID : String)
    (device : DeviceInfo) (location : LocationInfo) (concurrentLimit now : ℤ)
    (cfg : Config) :
    (concurrentLimit > 0 →
      ((st.getActiveByUser userID now).length : ℤ) ≥ concurrentLimit →
      registerSession st userID sessionID device location concurrentLimit now cfg
        = (st,
          { session := none
            isNewLocation := false
            previousLocation := none
            activeSessions := (st.getActiveByUser userID now).map storeToSession
            limitExceeded := true }))
    ∧ (concurrentLimit = 0 →
        (registerSession st userID sessionID device location concurrentLimit now cfg).1
            = st.save (mkStoreSession userID sessionID device location now cfg)
        ∧ (registerSession st userID sessionID device location concurrentLimit now
            cfg).2.limitExceeded = false
        ∧ (registerSession st userID sessionID device location concurrentLimit now
            cfg).2.session
            = some
              { SessionID := sessionID
                UserID := userID
                Device := device
                Location := location
                CreatedAt := now
                TTLSeconds := cfg.SessionTTL / Heimdall.secondNS }) := by
  constructor
  · intro h1 h2
    simp only [registerSession]
    rw [if_pos ⟨h1, h2⟩]
  · intro h0
    have hno : ¬(concurrentLimit > 0 ∧
        ((st.getActiveByUser userID now).length : ℤ) ≥ concurrentLimit) := by
      rintro ⟨h1, _⟩
      omega
    simp only [registerSession]
    rw [if_neg hno]
    exact ⟨rfl, rfl, rfl⟩

/-- Witness for C1: a one-session store with limit 1 takes the rejection
path with the store unchanged, and limit 0 on the same store admits and
persists the new session. -/
theorem registerSession_limit_spec_witness :
    ((1 : ℤ) > 0)
    ∧ registerSession
        ⟨[("s1", ⟨"s1", "u", "", "", "", "", "", "", "", 0, 0, 10, 0⟩)],
         [("u", ["s1"])]⟩ "u" "s2"
        ⟨"", "", "", "", ""⟩ ⟨"", "", "", 0, 0⟩ 1 5 DefaultConfig
        = (⟨[("s1", ⟨"s1", "u", "", "", "", "", "", "", "", 0, 0, 10, 0⟩)],
            [("u", ["s1"])]⟩,
          { session := none
            isNewLocation := false
            previousLocation := none
            activeSessions :=
              (MemStore.getActiveByUser
                ⟨[("s1", ⟨"s1", "u", "", "", "", "", "", "", "", 0, 0, 10, 0⟩)],
                 [("u", ["s1"])]⟩ "u" 5).map storeToSession
            limitExceeded := true })
    ∧ (registerSession
        ⟨[("s1", ⟨"s1", "u", "", "", "", "", "", "", "", 0, 0, 10, 0⟩)],
         [("u", ["s1"])]⟩ "u" "s2"
        ⟨"", "", "", "", ""⟩ ⟨"", "", "", 0, 0⟩ 0 5 DefaultConfig).2.limitExceeded
        = false := by
  refine ⟨by norm_num, ?_, ?_⟩
  · exact (registerSession_limit_spec
      ⟨[("s1", ⟨"s1", "u", "", "", "", "", "", "", "", 0, 0, 10, 0⟩)],
       [("u", ["s1"])]⟩ "u" "s2" ⟨"", "", "", "", ""⟩ ⟨"", "", "", 0, 0⟩ 1 5
      DefaultConfig).1 (by norm_num) (by decide)
  · exact ((registerSession_limit_spec
      ⟨[("s1", ⟨"s1", "u", "", "", "", "", "", "", "", 0, 0, 10, 0⟩)],
       [("u", ["s1"])]⟩ "u" "s2" ⟨"", "", "", "", ""⟩ ⟨"", "", "", 0, 0⟩ 0 5
      DefaultConfig).2 rfl).2.1

open Store in
/-- C5: on an admitted registration, the new-location verdict is
`IsNewLocation` applied to the configured threshold, the location of the
head of the fetched active list (the most recent session) and the incoming
location, and only to those; when flagged, PreviousLocation is exactly that
head's location; with an empty active list the verdict is false and no
previous location is reported. -/
theorem registerSession_newLocation_spec (st : MemStore)
    (userID sessionID : String) (device : DeviceInfo) (location : LocationInfo)
    (concurrentLimit now : ℤ) (cfg : Config)
    (hNoLimit : ¬(concurrentLimit > 0 ∧
      ((st.getActiveByUser userID now).length : ℤ) ≥ concurrentLimit)) :
    (st.getActiveByUser userID now = [] →
      (registerSession st userID sessionID device location concurrentLimit now
          cfg).2.isNewLocation = false
      ∧ (registerSession st userID sessionID device location concurrentLimit now
          cfg).2.previousLocation = none)
    ∧ (∀ latestSession rest,
        st.getActiveByUser userID now = latestSession :: rest →
        (registerSession st userID sessionID device location concurrentLimit now
            cfg).2.isNewLocation
          = IsNewLocation (sessionLocation latestSession) location
              cfg.NewLocationThresholdKM
        ∧ (registerSession st userID sessionID device location concurrentLimit now
            cfg).2.previousLocation
          = (if IsNewLocation (sessionLocation latestSession) location
                cfg.NewLocationThresholdKM
             then some (sessionLocation latestSession) else none)) := by
  constructor
  · intro hempty
    simp only [registerSession]
    rw [if_neg hNoLimit]
    simp [hempty]
  · intro latestSession rest hcons
    simp only [registerSession]
    rw [if_neg hNoLimit]
    cases hb : IsNewLocation (sessionLocation latestSession) location
        cfg.NewLocationThresholdKM with
    | true => simp [hcons, hb]
    | false => simp [hcons, hb]

/-- Witness for C5: on the empty store every limit is un-exceeded and the
verdict is negative with no previous location. -/
theorem registerSession_newLocation_spec_witness :
    (¬((0 : ℤ) > 0 ∧
      ((MemStore.getActiveByUser ⟨[], []⟩ "u" 0).length : ℤ) ≥ 0))
    ∧ (registerSession ⟨[], []⟩ "u" "s1" ⟨"", "", "", "", ""⟩ ⟨"", "", "", 0, 0⟩
        0 0 DefaultConfig).2.isNewLocation = false
    ∧ (registerSession ⟨[], []⟩ "u" "s1" ⟨"", "", "", "", ""⟩ ⟨"", "", "", 0, 0⟩
        0 0 DefaultConfig).2.previousLocation = none := by
  have h := (registerSession_newLocation_spec ⟨[], []⟩ "u" "s1"
    ⟨"", "", "", "", ""⟩ ⟨"", "", "", 0, 0⟩ 0 0 DefaultConfig
    (by rintro ⟨h1, _⟩; omega)).1 rfl
  exact ⟨by rintro ⟨h1, _⟩; omega, h.1, h.2⟩

end Heimdall
